import Mathlib

/-!
Verification development for the firmware symbol-import pipeline
(`import_system_symbols_from_ipsw.py`).  The Python source is shallowly
embedded: pure logic becomes Lean functions, subprocess and HTTP effects
become explicit `Except`-valued parameters, Python dicts become
insertion-ordered association lists, and Python exceptions become
`Except.error` values.
-/

set_option linter.unusedVariables false

namespace AppleSymbols

/-- Association-list lookup, modelling Python `k in d` / `d[k]` access. -/
def dictGet? {κ ν : Type} [DecidableEq κ] (k : κ) : List (κ × ν) → Option ν
  | [] => none
  | (k₁, v) :: rest => if k₁ = k then some v else dictGet? k rest

/-- Python `d.get(k, dflt)`. -/
def dictGetD {κ ν : Type} [DecidableEq κ] (k : κ) (d : List (κ × ν)) (dflt : ν) : ν :=
  (dictGet? k d).getD dflt

/-- Python `d[k] = v`: replace the value in place if the key exists
(keeping its insertion position), append a fresh key at the end otherwise. -/
def dictInsert {κ ν : Type} [DecidableEq κ] (k : κ) (v : ν) : List (κ × ν) → List (κ × ν)
  | [] => [(k, v)]
  | (k₁, v₁) :: rest => if k₁ = k then (k, v) :: rest else (k₁, v₁) :: dictInsert k v rest

/-- Python `d.pop(k, None)`: remove the key if present, no-op otherwise. -/
def dictPop {κ ν : Type} [DecidableEq κ] (k : κ) : List (κ × ν) → List (κ × ν)
  | [] => []
  | (k₁, v₁) :: rest => if k₁ = k then rest else (k₁, v₁) :: dictPop k rest

/-- A device entry of the static configuration table (`Device` dataclass). -/
structure Device where
  identifier : String
  name : String
  architecture : String
deriving DecidableEq

/-- The static per-OS-family device table `DEVICES_TO_CHECK`, verbatim from the source. -/
def DEVICES_TO_CHECK : List (String × List Device) :=
  [ ("ios",
     [ ⟨"iPhone14,2", "iPhone 13 Pro", "arm64e"⟩,
       ⟨"iPhone10,6", "iPhone X (GSM)", "arm64"⟩,
       ⟨"iPhone8,1", "iPhone 6S", "arm64"⟩,
       ⟨"iPad12,1", "iPad 9", "arm64e"⟩,
       ⟨"iPad5,4", "iPad Air 2", "arm64"⟩ ]),
    ("tvos",
     [ ⟨"AppleTV5,3", "AppleTV 4 (2015)", "arm64"⟩,
       ⟨"AppleTV6,2", "AppleTV 4 (2015)", "arm64"⟩ ]),
    ("macos",
     [ ⟨"MacBookPro18,3", "MacBook Pro (M1 Pro, 14-inch, 2021)", "arm64e"⟩,
       ⟨"MacBookAir10,1", "MacBook Air (M1, Late 2020)", "arm64e"⟩ ]),
    ("watchos",
     [ ⟨"Watch5,4", "Apple Watch Series 5 (44mm, LTE)", "arm64e"⟩,
       ⟨"Watch4,3", "Apple Watch Series 4 (40mm, LTE)", "arm64e"⟩,
       ⟨"Watch3,4", "Apple Watch Series 3 (42mm)", "arm64e"⟩ ]) ]

/-- Whether the character list `s` begins with the character list `p`
(kernel-reducible replacement for the prefix test of `str.startswith`). -/
def beginsWithList : List Char → List Char → Bool
  | [], _ => true
  | _ :: _, [] => false
  | p :: ps, x :: xs => (p = x) && beginsWithList ps xs

/-- Python `pre in s` restricted to the needle/haystack as character
lists: the needle occurs contiguously somewhere in the haystack. -/
def hasInfixList (needle : List Char) : List Char → Bool
  | [] => needle.isEmpty
  | x :: xs => beginsWithList needle (x :: xs) || hasInfixList needle xs

/-- Python `s.startswith(pre)`. -/
def strBeginsWith (s pre : String) : Bool :=
  beginsWithList pre.toList s.toList

/-- Split a character list at every occurrence of a separator character. -/
def splitDot : List Char → List (List Char)
  | [] => [[]]
  | x :: xs =>
    match splitDot xs with
    | [] => [[]]
    | g :: gs => if x = '.' then [] :: g :: gs else (x :: g) :: gs

/-- Numeric value of a non-empty all-digit token, `none` otherwise. -/
def decimalNat? (cs : List Char) : Option Nat :=
  if cs ≠ [] ∧ cs.all Char.isDigit then
    some (cs.foldl (fun n c => n * 10 + (c.toNat - 48)) 0)
  else none

/-- Whether every release segment is zero. -/
def allZero : List Nat → Bool
  | [] => true
  | a :: ta => (a = 0) && allZero ta

/-- Strict lexicographic order on dotted release numbers, with missing
trailing components treated as zero, as `packaging.version` compares
plain release segments. -/
def verLt : List Nat → List Nat → Bool
  | [], b => !allZero b
  | _ :: _, [] => false
  | a :: ta, b :: tb => if a < b then true else if b < a then false else verLt ta tb

/-- Comparison `parsed_version >= version.parse(threshold)` from the source. -/
def verGe (a b : List Nat) : Bool := !(verLt a b)

/-- Release segments of `version.parse` applied to a dotted numeric string. -/
def parseDotted (s : String) : List Nat :=
  (splitDot s.toList).map (fun t => (decimalNat? t).getD 0)

/-- Which manifest the Format Adapter reads to locate the system image. -/
inductive ManifestChoice where
  | buildManifest
  | restoreManifest
deriving DecidableEq

/-- The plist contents of one unpacked full-image archive that
`extract_symbols_from_one_ipsw_archive` consults: `SystemVersion.plist`
(macOS), `Restore.plist` version fields, the `BuildManifest.plist`
system-image path, and the `SystemRestoreImageFileSystems` keys of
`Restore.plist` in listed order. -/
structure IpswArchive where
  system_product_version : String
  system_product_build : String
  restore_product_version : String
  restore_product_build : String
  build_manifest_image : String
  restore_image_filesystems : List String
deriving DecidableEq

/-- Embedding of `extract_symbols_from_one_ipsw_archive`: returns which
manifest path was selected together with the list of disk-image filenames,
in order, for which `process_one_dmg` is invoked. -/
def extract_symbols_from_one_ipsw_archive (pfx : String) (a : IpswArchive) :
    ManifestChoice × List String :=
  let os_version := if pfx = "macos" then a.system_product_version else a.restore_product_version
  let parsed := parseDotted os_version
  if (pfx = "macos" ∧ verGe parsed (parseDotted "13.0") = true)
      ∨ (pfx = "ios" ∧ verGe parsed (parseDotted "16.0") = true) then
    (ManifestChoice.buildManifest, [a.build_manifest_image])
  else
    (ManifestChoice.restoreManifest, a.restore_image_filesystems)

/-- Index of the last occurrence of a character in a character list. -/
def lastIdxOf (c : Char) : List Char → Option Nat
  | [] => none
  | x :: xs =>
    match lastIdxOf c xs with
    | some i => some (i + 1)
    | none => if x = c then some 0 else none

/-- Extension component of Python `os.path.splitext` for a bare filename:
the substring from the last dot on, unless every character before that dot
is itself a dot (leading-dot filenames carry no extension). -/
def splitextExt (s : String) : String :=
  match lastIdxOf '.' s.toList with
  | none => ""
  | some i => if (s.toList.take i).all (fun c => c = '.') then "" else String.mk (s.toList.drop i)

/-- The per-filename test of the shared-cache scan loop: keep a file iff its
name starts with the shared-cache prefix and its extension is empty. -/
def cacheFileSelected (f : String) : Bool :=
  strBeginsWith f "dyld_shared_cache" && splitextExt f == ""

/-- Observable actions of `process_one_dmg`, in invocation order. -/
inductive Ev where
  | aeaKey
  | aeaDecrypt
  | mount
  | listdir
  | processCache (filename : String)
  | symsortUtils
  | unmount (volume : String)
deriving DecidableEq

/-- Recognizes the unmount action of a trace. -/
def isUnmount : Ev → Bool
  | Ev.unmount _ => true
  | _ => false

/-- External-process environment of `process_one_dmg`: each field is the
outcome of the corresponding subprocess or filesystem call
(`Except.error` modelling a raised exception). -/
structure DmgEnv where
  is_aea : Bool
  aea_key : Except String String
  aea_decrypt : Except String Unit
  mount : Except String String
  listdir : Except String (List String)
  extract_cache : String → Except String Unit
  symsort_utils : Except String Unit
  detach : Except String Unit

/-- The aea-decryption prelude of `process_one_dmg` (runs before the mount):
key retrieval then decryption, each propagating a failure. -/
def dmg_prelude (env : DmgEnv) : List Ev × Except String Unit :=
  if env.is_aea then
    match env.aea_key with
    | Except.error e => ([Ev.aeaKey], Except.error e)
    | Except.ok _ =>
      match env.aea_decrypt with
      | Except.error e => ([Ev.aeaKey, Ev.aeaDecrypt], Except.error e)
      | Except.ok _ => ([Ev.aeaKey, Ev.aeaDecrypt], Except.ok ())
  else ([], Except.ok ())

/-- The `for filename in os.listdir(shared_cache_dir)` loop: process each
selected cache file until one fails; a failure propagates. -/
def cache_loop (extract : String → Except String Unit) : List String → List Ev × Except String Unit
  | [] => ([], Except.ok ())
  | f :: fs =>
    if cacheFileSelected f then
      match extract f with
      | Except.error e => ([Ev.processCache f], Except.error e)
      | Except.ok _ =>
        let r := cache_loop extract fs
        (Ev.processCache f :: r.1, r.2)
    else cache_loop extract fs

/-- The `try` body of `process_one_dmg`: list the shared-cache directory
(raising if it is absent), process each selected cache file, then run the
auxiliary symsort pass. -/
def dmg_body (env : DmgEnv) : List Ev × Except String Unit :=
  match env.listdir with
  | Except.error e => ([Ev.listdir], Except.error e)
  | Except.ok files =>
    let r := cache_loop env.extract_cache files
    match r.2 with
    | Except.error e => (Ev.listdir :: r.1, Except.error e)
    | Except.ok _ => (Ev.listdir :: r.1 ++ [Ev.symsortUtils], env.symsort_utils)

/-- Embedding of `process_one_dmg`: aea prelude, mount, `try` body,
`finally` unmount.  Per Python semantics, an exception raised by the
`finally` block replaces any exception raised by the body. -/
def process_one_dmg (env : DmgEnv) : List Ev × Except String Unit :=
  let pre := dmg_prelude env
  match pre.2 with
  | Except.error e => (pre.1, Except.error e)
  | Except.ok _ =>
    match env.mount with
    | Except.error e => (pre.1 ++ [Ev.mount], Except.error e)
    | Except.ok vol =>
      let body := dmg_body env
      let result :=
        match env.detach with
        | Except.error e₂ => Except.error e₂
        | Except.ok _ => body.2
      (pre.1 ++ [Ev.mount] ++ body.1 ++ [Ev.unmount vol], result)

/-- Embedding of `process_shared_cache_file`: run the shared-cache
decomposer (`check_call`, propagating), then the symbol sorter
(`check_call`, propagating). -/
def process_shared_cache_file (extractor : Except String Unit) (sorter : Except String Unit) :
    Except String Unit :=
  match extractor with
  | Except.error e => Except.error e
  | Except.ok _ => sorter

/-- Embedding of `symsort_utilities`: two sequential symsorter invocations,
each propagating a failure. -/
def symsort_utilities (sort₁ sort₂ : Except String Unit) : Except String Unit :=
  match sort₁ with
  | Except.error e => Except.error e
  | Except.ok _ => sort₂

/-- Test of `_ota_payload_pattern`, the anchored regular expression
matching `payload.` followed by exactly three digits. -/
def ota_payload_pattern (s : String) : Bool :=
  strBeginsWith s "payload." && s.toList.length == 11 && (s.toList.drop 8).all Char.isDigit

/-- Stable insertion of a string into an ascending list (`list.sort`). -/
def insertStr (x : String) : List String → List String
  | [] => [x]
  | y :: ys => if y < x then y :: insertStr x ys else x :: y :: ys

/-- Ascending stable sort of filenames, modelling Python `files.sort()`. -/
def sortStrings : List String → List String
  | [] => []
  | x :: xs => insertStr x (sortStrings xs)

/-- The payload directory contents that `unpack_ota` examines: whether the
single `payload` file exists, and the directory listing. -/
structure OtaPayloadDir where
  has_single_payload : Bool
  listing : List String
deriving DecidableEq

/-- The inner `run_ota` helper: invoke the external unpacker; a
`CalledProcessError` is caught and logged, never re-raised. -/
def run_ota (tool : String → Except String Unit) (path : String) : List String :=
  match tool path with
  | Except.ok _ => []
  | Except.error e => [e]

/-- Embedding of `unpack_ota`: run the unpacker on the single payload if
present, then on every numbered payload segment in sorted order.  Returns
the logged unpacker errors and the function's outcome (which is always
success: every unpacker failure is caught inside `run_ota`). -/
def unpack_ota (tool : String → Except String Unit) (dir : OtaPayloadDir) :
    List String × Except String Unit :=
  let singleLogs := if dir.has_single_payload then run_ota tool "payload" else []
  let files := sortStrings (dir.listing.filter ota_payload_pattern)
  (singleLogs ++ (files.map (run_ota tool)).flatten, Except.ok ())

/-- One firmware entry of a catalog response (`res.json()["firmwares"]`).
`releasedate` abstracts `parse_date(x["releasedate"])` as a totally ordered
timestamp; `prerequisitebuildid` and `prerequisiteversion` are falsy in
Python exactly when empty. -/
structure OtaFirmware where
  version : String
  buildid : String
  url : String
  releasetype : String
  prerequisitebuildid : String
  prerequisiteversion : String
  releasedate : Nat
  identifier : String
deriving DecidableEq

/-- The `OTA` dataclass (its `url` kept as the raw string). -/
structure OTARelease where
  build_number : String
  device_identifier : String
  os_name : String
  os_version : String
  url : String
deriving DecidableEq

/-- The `OTA.bundle_id` property. -/
def ota_bundle_id (o : OTARelease) : String :=
  o.device_identifier ++ "_" ++ o.os_version ++ "_" ++ o.build_number ++ "_ota"

/-- Embedding of `regular_version_from_ota_version`. -/
def regular_version_from_ota_version (ota_version : String) : String :=
  if strBeginsWith ota_version "9.9." then String.mk (ota_version.toList.drop 4)
  else ota_version

/-- Stable insertion by release date (earlier dates first; an inserted
element goes before later-inserted equal dates, matching the stability of
Python `sorted`). -/
def insertByDate (x : OtaFirmware) : List OtaFirmware → List OtaFirmware
  | [] => [x]
  | y :: ys => if y.releasedate < x.releasedate then y :: insertByDate x ys else x :: y :: ys

/-- Stable ascending sort by release date, modelling
`sorted(..., key=lambda x: parse_date(x["releasedate"]))`. -/
def sortByDate : List OtaFirmware → List OtaFirmware
  | [] => []
  | x :: xs => insertByDate x (sortByDate xs)

/-- The qualifying-firmware filter and sort: drop betas and any entry with
a prerequisite build or version, then sort by release date. -/
def qualifying_firmwares (fws : List OtaFirmware) : List OtaFirmware :=
  sortByDate (fws.filter fun x =>
    !(x.releasetype == "Beta") && x.prerequisitebuildid == "" && x.prerequisiteversion == "")

/-- The `versions` dict of `get_missing_ota_only_releases`: keys are
`(regular_version, buildid)` pairs, values are url-keyed dicts of firmware
entries, both in Python dict insertion order. -/
abbrev VersionsDict := List ((String × String) × List (String × OtaFirmware))

/-- One iteration of `versions.setdefault(key, {})[firmware["url"]] = firmware`. -/
def ota_add_firmware (fw : OtaFirmware) (d : VersionsDict) : VersionsDict :=
  let key := (regular_version_from_ota_version fw.version, fw.buildid)
  dictInsert key (dictInsert fw.url fw (dictGetD key d [])) d

/-- The diffing pass over one device's full-image catalog: the source pops
`(firmware["version"], firmware["buildid"])` — the raw catalog version —
even though it computes `regular_version_from_ota_version` on the line
above and leaves it unused. -/
def ota_pop_ipsws (fws : List OtaFirmware) (d : VersionsDict) : VersionsDict :=
  fws.foldl (fun acc fw => dictPop (fw.version, fw.buildid) acc) d

/-- The per-device loop of `get_missing_ota_only_releases`: fetch the OTA
catalog (propagating an HTTP error), select firmwares per the version
selector, record them, then fetch the full-image catalog and pop
cross-referenced pairs.  Devices whose qualifying set is empty are skipped
entirely (the `continue` also skips the diffing pass). -/
def ota_device_loop (ver : String)
    (otaCat ipswCat : String → Except String (List OtaFirmware)) :
    List Device → VersionsDict → Except String VersionsDict
  | [], d => Except.ok d
  | dev :: devs, d =>
    match otaCat dev.identifier with
    | Except.error e => Except.error e
    | Except.ok fws =>
      let qual := qualifying_firmwares fws
      if qual.isEmpty then ota_device_loop ver otaCat ipswCat devs d
      else
        let firmwares :=
          if ver = "all" then qual
          else
            let actual :=
              if ver = "latest" then ((qual.getLast?).map (fun x => x.version)).getD "" else ver
            qual.filter (fun x => x.version == actual)
        let d₁ := firmwares.foldl (fun acc fw => ota_add_firmware fw acc) d
        match ipswCat dev.identifier with
        | Except.error e => Except.error e
        | Except.ok ifws => ota_device_loop ver otaCat ipswCat devs (ota_pop_ipsws ifws d₁)

/-- The inner collection loop (`for info in version.values()`): build the
`OTA` value and keep it unless the artifact store already has its bundle;
an existence-check failure propagates. -/
def ota_collect_inner (os_name : String) (hasSym : String → String → Except String Bool) :
    List (String × OtaFirmware) → Except String (List OTARelease)
  | [] => Except.ok []
  | (_, info) :: rest =>
    let ota : OTARelease :=
      { build_number := info.buildid
        device_identifier := info.identifier
        os_name := os_name
        os_version := info.version
        url := info.url }
    match hasSym os_name (ota_bundle_id ota) with
    | Except.error e => Except.error e
    | Except.ok true => ota_collect_inner os_name hasSym rest
    | Except.ok false =>
      match ota_collect_inner os_name hasSym rest with
      | Except.error e => Except.error e
      | Except.ok l => Except.ok (ota :: l)

/-- The outer collection loop (`for version in versions.values()`). -/
def ota_collect (os_name : String) (hasSym : String → String → Except String Bool) :
    VersionsDict → Except String (List OTARelease)
  | [] => Except.ok []
  | (_, inner) :: rest =>
    match ota_collect_inner os_name hasSym inner with
    | Except.error e => Except.error e
    | Except.ok l₁ =>
      match ota_collect os_name hasSym rest with
      | Except.error e => Except.error e
      | Except.ok l₂ => Except.ok (l₁ ++ l₂)

/-- Embedding of `get_missing_ota_only_releases`, parameterized by the two
catalog endpoints and the artifact-store existence check. -/
def get_missing_ota_only_releases (os_name ver : String)
    (otaCat ipswCat : String → Except String (List OtaFirmware))
    (hasSym : String → String → Except String Bool) : Except String (List OTARelease) :=
  match ota_device_loop ver otaCat ipswCat (dictGetD os_name DEVICES_TO_CHECK []) [] with
  | Except.error e => Except.error e
  | Except.ok d => ota_collect os_name hasSym d

/-- Observable actions of the `main_download_otas` processing loop. -/
inductive OtaEv where
  | download (o : OTARelease)
  | extract (o : OTARelease)
  | logError (e : String)
  | upload
deriving DecidableEq

/-- The per-release loop of `main_download_otas`: download then extract
inside `try`; on any exception the `except` block logs it only when the
version selector is `"all"`, and in every mode falls through to the next
release (nothing is re-raised). -/
def ota_loop (os_version : String) (download extract : OTARelease → Except String Unit) :
    List OTARelease → List OtaEv
  | [] => []
  | o :: rest =>
    let step : List OtaEv × Option String :=
      match download o with
      | Except.error e => ([OtaEv.download o], some e)
      | Except.ok _ =>
        match extract o with
        | Except.error e => ([OtaEv.download o, OtaEv.extract o], some e)
        | Except.ok _ => ([OtaEv.download o, OtaEv.extract o], none)
    let handled :=
      match step.2 with
      | none => step.1
      | some e => step.1 ++ (if os_version = "all" then [OtaEv.logError e] else [])
    handled ++ ota_loop os_version download extract rest

/-- Embedding of `main_download_otas` downstream of discovery: an empty
candidate list returns immediately; otherwise the processing loop runs and
then, when uploading is enabled, the batch upload. -/
def main_download_otas (os_version : String) (download extract : OTARelease → Except String Unit)
    (upload : Bool) (discovery : Except String (List OTARelease)) :
    List OtaEv × Except String Unit :=
  match discovery with
  | Except.error e => ([], Except.error e)
  | Except.ok otas =>
    if otas.length = 0 then ([], Except.ok ())
    else
      (ota_loop os_version download extract otas ++ (if upload then [OtaEv.upload] else []),
        Except.ok ())

/-- One entry of a `info.json` full-image catalog response. -/
structure IpswInfo where
  version : String
  buildid : String
  url : String
deriving DecidableEq

/-- The `IPSW` dataclass. -/
structure IPSW where
  architecture : String
  build_number : String
  os_name : String
  os_version : String
  archive_name : String
deriving DecidableEq

/-- The `IPSW.unique_id` property, the basis of `__eq__` and `__hash__`. -/
def ipsw_unique_id (i : IPSW) : String :=
  i.os_name ++ "-" ++ i.os_version ++ "-" ++ i.build_number ++ "-" ++ i.architecture

/-- The `IPSW.bundle_id` property. -/
def ipsw_bundle_id (i : IPSW) : String :=
  i.os_version ++ "_" ++ i.build_number ++ "_" ++ i.architecture

/-- Python set insertion under `IPSW.__eq__`: add unless an element with
the same `unique_id` is already present. -/
def setAdd (i : IPSW) (s : List IPSW) : List IPSW :=
  if s.any (fun j => ipsw_unique_id j == ipsw_unique_id i) then s else s ++ [i]

/-- Basename of a URL path (`os.path.basename(urlparse(url).path)`) for
URLs without query or fragment components. -/
def urlBasename (u : String) : String :=
  match lastIdxOf '/' u.toList with
  | none => u
  | some i => String.mk (u.toList.drop (i + 1))

/-- The per-device loop of `get_missing_ipsws`: fetch the device's
`info.json` (propagating an HTTP error), skip empty responses, build the
`IPSW` from the first entry, skip it when the artifact store already has
its bundle, and otherwise add it to the url-keyed dict of sets. -/
def get_missing_ipsws_go (os_name : String)
    (info : String → Except String (List IpswInfo))
    (hasSym : String → String → Except String Bool) :
    List Device → List (String × List IPSW) → Except String (List (String × List IPSW))
  | [], acc => Except.ok acc
  | dev :: devs, acc =>
    match info dev.identifier with
    | Except.error e => Except.error e
    | Except.ok [] => get_missing_ipsws_go os_name info hasSym devs acc
    | Except.ok (ii :: _) =>
      let ipsw : IPSW :=
        { architecture := dev.architecture
          build_number := ii.buildid
          os_name := os_name
          os_version := ii.version
          archive_name := urlBasename ii.url }
      match hasSym os_name (ipsw_bundle_id ipsw) with
      | Except.error e => Except.error e
      | Except.ok true => get_missing_ipsws_go os_name info hasSym devs acc
      | Except.ok false =>
        let acc₂ := dictInsert ii.url (setAdd ipsw (dictGetD ii.url acc [])) acc
        get_missing_ipsws_go os_name info hasSym devs acc₂

/-- Embedding of `get_missing_ipsws`: an OS family absent from the device
table yields an empty dict immediately. -/
def get_missing_ipsws (os_name os_version : String)
    (info : String → Except String (List IpswInfo))
    (hasSym : String → String → Except String Bool) :
    Except String (List (String × List IPSW)) :=
  if (dictGet? os_name DEVICES_TO_CHECK).isNone then Except.ok []
  else get_missing_ipsws_go os_name info hasSym (dictGetD os_name DEVICES_TO_CHECK []) []

/-- Whether a discovery-result entry (one archive URL with its set of
releases) contains a release with the given build number and architecture. -/
def entryHasBA (b a : String) (e : String × List IPSW) : Bool :=
  e.2.any fun i => i.build_number == b && i.architecture == a

/-- The download stage of `main_download_ipsws`: one archive download per
dict key; an empty discovery result returns before any download. -/
def main_download_ipsws_downloads (discovery : Except String (List (String × List IPSW))) :
    List String :=
  match discovery with
  | Except.error _ => []
  | Except.ok l => if l.length = 0 then [] else l.map Prod.fst

/-- Outcome of the `subprocess.run` call of `has_symbols_in_cloud_storage`
(stdout has stderr folded in, as in the source). -/
structure RunResult where
  returncode : Nat
  stdout : String
deriving DecidableEq

/-- Python `CompletedProcess.check_returncode`: raise exactly when the
exit status is non-zero. -/
def check_returncode (r : RunResult) : Except String Unit :=
  if r.returncode = 0 then Except.ok ()
  else Except.error ("Command returned non-zero exit status " ++ toString r.returncode)

/-- Python `"not found" in result.stdout`. -/
def stdoutHasNotFound (s : String) : Bool :=
  hasInfixList "not found".toList s.toList

/-- Embedding of `has_symbols_in_cloud_storage`: exit status zero means
the bundle exists; otherwise an explicit "not found" in the output means
it does not; any other failure reaches `check_returncode`, which raises. -/
def has_symbols_in_cloud_storage (r : RunResult) : Except String Bool :=
  if r.returncode = 0 then Except.ok true
  else if stdoutHasNotFound r.stdout then Except.ok false
  else
    match check_returncode r with
    | Except.error e => Except.error e
    | Except.ok _ => Except.ok false

/-- Provenance invariant for the accumulator of `get_missing_ipsws_go`:
every release recorded under a URL key was built from the first catalog
entry of some device of the family, with that entry's URL as the key, its
build number as the release's build number, and the device's architecture
as the release's architecture. -/
def ipswProv (os_name : String) (info : String → Except String (List IpswInfo))
    (devs₀ : List Device) (acc : List (String × List IPSW)) : Prop :=
  ∀ url s, (url, s) ∈ acc → ∀ i ∈ s, ∃ d ∈ devs₀, ∃ ii rest,
    info d.identifier = Except.ok (ii :: rest) ∧ ii.url = url ∧
      ii.buildid = i.build_number ∧ d.architecture = i.architecture

/-! Helper lemmas -/

theorem mem_dictInsert {κ ν : Type} [DecidableEq κ] (k : κ) (v : ν) (d : List (κ × ν))
    (x : κ × ν) (hx : x ∈ dictInsert k v d) : x = (k, v) ∨ x ∈ d := by
  induction d with
  | nil => simpa [dictInsert] using hx
  | cons p rest ih =>
    obtain ⟨k₁, v₁⟩ := p
    by_cases hk : k₁ = k
    · simp only [dictInsert, if_pos hk] at hx
      rcases List.mem_cons.mp hx with h | h
      · exact Or.inl h
      · exact Or.inr (List.mem_cons_of_mem _ h)
    · simp only [dictInsert, if_neg hk] at hx
      rcases List.mem_cons.mp hx with h | h
      · exact Or.inr (by rw [h]; exact List.mem_cons_self _ _)
      · rcases ih h with h₁ | h₁
        · exact Or.inl h₁
        · exact Or.inr (List.mem_cons_of_mem _ h₁)

theorem keys_mem_dictInsert {κ ν : Type} [DecidableEq κ] (k : κ) (v : ν) (d : List (κ × ν))
    (k₂ : κ) (hk₂ : k₂ ∈ (dictInsert k v d).map Prod.fst) :
    k₂ ∈ d.map Prod.fst ∨ k₂ = k := by
  rcases List.mem_map.mp hk₂ with ⟨x, hx, hfst⟩
  rcases mem_dictInsert k v d x hx with h | h
  · right; rw [← hfst, h]
  · left; exact List.mem_map.mpr ⟨x, h, hfst⟩

theorem nodup_keys_dictInsert {κ ν : Type} [DecidableEq κ] (k : κ) (v : ν) :
    ∀ d : List (κ × ν), (d.map Prod.fst).Nodup → ((dictInsert k v d).map Prod.fst).Nodup := by
  intro d
  induction d with
  | nil => intro _; simp [dictInsert]
  | cons p rest ih =>
    obtain ⟨k₁, v₁⟩ := p
    intro hnd
    rw [List.map_cons, List.nodup_cons] at hnd
    by_cases hk : k₁ = k
    · simp only [dictInsert, if_pos hk, List.map_cons, List.nodup_cons]
      exact ⟨hk ▸ hnd.1, hnd.2⟩
    · simp only [dictInsert, if_neg hk, List.map_cons, List.nodup_cons]
      refine ⟨fun hmem => ?_, ih hnd.2⟩
      rcases keys_mem_dictInsert k v rest k₁ hmem with h | h
      · exact hnd.1 h
      · exact hk h

theorem dictGet?_some_mem {κ ν : Type} [DecidableEq κ] (k : κ) (v : ν) :
    ∀ d : List (κ × ν), dictGet? k d = some v → (k, v) ∈ d := by
  intro d
  induction d with
  | nil => intro h; cases h
  | cons p rest ih =>
    obtain ⟨k₁, v₁⟩ := p
    intro h
    by_cases hk : k₁ = k
    · simp only [dictGet?, if_pos hk] at h
      rw [hk]
      exact Option.some.inj h ▸ List.mem_cons_self _ _
    · simp only [dictGet?, if_neg hk] at h
      exact List.mem_cons_of_mem _ (ih h)

theorem mem_dictGetD_nil {κ ν : Type} [DecidableEq κ] (k : κ) (d : List (κ × List ν))
    (i : ν) (hi : i ∈ dictGetD k d []) : (k, dictGetD k d []) ∈ d := by
  unfold dictGetD at hi ⊢
  cases h : dictGet? k d with
  | none => rw [h] at hi; cases hi
  | some s => simpa [h] using dictGet?_some_mem k s d h

theorem nodup_keys_functional {κ ν : Type} [DecidableEq κ] (k : κ) (v₁ v₂ : ν) :
    ∀ d : List (κ × ν), (d.map Prod.fst).Nodup → (k, v₁) ∈ d → (k, v₂) ∈ d → v₁ = v₂ := by
  intro d
  induction d with
  | nil => intro _ h; cases h
  | cons p rest ih =>
    obtain ⟨k₁, u⟩ := p
    intro hnd h₁ h₂
    rw [List.map_cons, List.nodup_cons] at hnd
    rcases List.mem_cons.mp h₁ with he₁ | he₁ <;> rcases List.mem_cons.mp h₂ with he₂ | he₂
    · rw [Prod.mk.injEq] at he₁ he₂
      rw [he₁.2, he₂.2]
    · rw [Prod.mk.injEq] at he₁
      exact absurd (List.mem_map.mpr ⟨(k, v₂), he₂, he₁.1⟩) hnd.1
    · rw [Prod.mk.injEq] at he₂
      exact absurd (List.mem_map.mpr ⟨(k, v₁), he₁, he₂.1⟩) hnd.1
    · exact ih hnd.2 he₁ he₂

theorem mem_setAdd (i : IPSW) (s : List IPSW) (j : IPSW) (hj : j ∈ setAdd i s) :
    j ∈ s ∨ j = i := by
  unfold setAdd at hj
  by_cases h : s.any (fun j => ipsw_unique_id j == ipsw_unique_id i) = true
  · rw [if_pos h] at hj; exact Or.inl hj
  · rw [if_neg h] at hj
    rcases List.mem_append.mp hj with h₁ | h₁
    · exact Or.inl h₁
    · exact Or.inr (List.mem_singleton.mp h₁)

theorem countP_eq_one_of_unique {α : Type} (p : α → Bool) :
    ∀ l : List α, l.Nodup → ∀ e, e ∈ l → p e = true → (∀ x ∈ l, p x = true → x = e) →
      l.countP p = 1 := by
  intro l
  induction l with
  | nil => intro _ e he; cases he
  | cons x xs ih =>
    intro hnd e he hp huniq
    rw [List.nodup_cons] at hnd
    rcases List.mem_cons.mp he with rfl | hexs
    · have hzero : xs.countP p = 0 := by
        rw [List.countP_eq_zero]
        intro y hy hpy
        exact hnd.1 ((huniq y (List.mem_cons_of_mem _ hy) hpy) ▸ hy)
      rw [List.countP_cons, hzero, hp]
      simp
    · have hx : ¬p x = true := by
        intro hpx
        exact hnd.1 ((huniq x (List.mem_cons_self _ _) hpx).symm ▸ hexs)
      rw [List.countP_cons, if_neg hx]
      exact ih hnd.2 e hexs hp
        (fun y hy hpy => huniq y (List.mem_cons_of_mem _ hy) hpy)

theorem cache_loop_trace_no_unmount (ex : String → Except String Unit) :
    ∀ fs : List String, (cache_loop ex fs).1.countP isUnmount = 0 := by
  intro fs
  induction fs with
  | nil => rfl
  | cons f fs ih =>
    cases hf : cacheFileSelected f with
    | false => simp [cache_loop, hf, ih]
    | true =>
      cases hex : ex f with
      | error e => simp [cache_loop, hf, hex, isUnmount]
      | ok u => simp [cache_loop, hf, hex, List.countP_cons, isUnmount, ih]

theorem dmg_body_trace_no_unmount (env : DmgEnv) :
    (dmg_body env).1.countP isUnmount = 0 := by
  cases hl : env.listdir with
  | error e => simp [dmg_body, hl, isUnmount]
  | ok files =>
    have h := cache_loop_trace_no_unmount env.extract_cache files
    cases hr : (cache_loop env.extract_cache files).2 with
    | error e => simp [dmg_body, hl, hr, List.countP_cons, isUnmount, h]
    | ok u =>
      simp [dmg_body, hl, hr, List.countP_cons, List.countP_append, isUnmount, h]

theorem dmg_prelude_trace_no_unmount (env : DmgEnv) :
    (dmg_prelude env).1.countP isUnmount = 0 := by
  cases ha : env.is_aea with
  | false => simp [dmg_prelude, ha]
  | true =>
    cases hk : env.aea_key with
    | error e => simp [dmg_prelude, ha, hk, isUnmount]
    | ok key =>
      cases hd : env.aea_decrypt with
      | error e => simp [dmg_prelude, ha, hk, hd, isUnmount]
      | ok u => simp [dmg_prelude, ha, hk, hd, isUnmount]

theorem go_prov (os_name : String) (info : String → Except String (List IpswInfo))
    (hasSym : String → String → Except String Bool) (devs₀ : List Device) :
    ∀ (devs : List Device) (acc res : List (String × List IPSW)),
      (∀ d ∈ devs, d ∈ devs₀) → ipswProv os_name info devs₀ acc →
      get_missing_ipsws_go os_name info hasSym devs acc = Except.ok res →
      ipswProv os_name info devs₀ res := by
  intro devs
  induction devs with
  | nil =>
    intro acc res hsub hacc hgo
    simp only [get_missing_ipsws_go, Except.ok.injEq] at hgo
    exact hgo ▸ hacc
  | cons dev devs ih =>
    intro acc res hsub hacc hgo
    simp only [get_missing_ipsws_go] at hgo
    split at hgo
    · exact Except.noConfusion hgo
    · exact ih acc res (fun d hd => hsub d (List.mem_cons_of_mem _ hd)) hacc hgo
    · rename_i ii tail heq
      split at hgo
      · exact Except.noConfusion hgo
      · exact ih acc res (fun d hd => hsub d (List.mem_cons_of_mem _ hd)) hacc hgo
      · refine ih _ res (fun d hd => hsub d (List.mem_cons_of_mem _ hd)) ?_ hgo
        intro url s hmem i hi
        rcases mem_dictInsert _ _ _ _ hmem with heq₂ | hold
        · rw [Prod.mk.injEq] at heq₂
          obtain ⟨hurl, hs⟩ := heq₂
          rw [hs] at hi
          rcases mem_setAdd _ _ _ hi with hin | hieq
          · have hmem₂ := mem_dictGetD_nil ii.url acc i hin
            rcases hacc ii.url _ hmem₂ i hin with
              ⟨d, hd, ii₂, rest₂, hinfo₂, hurl₂, hb₂, ha₂⟩
            exact ⟨d, hd, ii₂, rest₂, hinfo₂, hurl₂.trans hurl.symm, hb₂, ha₂⟩
          · refine ⟨dev, hsub dev (List.mem_cons_self _ _), ii, tail, heq,
              hurl.symm, ?_, ?_⟩
            · rw [hieq]
            · rw [hieq]
        · exact hacc url s hold i hi

theorem go_nodup (os_name : String) (info : String → Except String (List IpswInfo))
    (hasSym : String → String → Except String Bool) :
    ∀ (devs : List Device) (acc res : List (String × List IPSW)),
      (acc.map Prod.fst).Nodup →
      get_missing_ipsws_go os_name info hasSym devs acc = Except.ok res →
      (res.map Prod.fst).Nodup := by
  intro devs
  induction devs with
  | nil =>
    intro acc res hacc hgo
    simp only [get_missing_ipsws_go, Except.ok.injEq] at hgo
    exact hgo ▸ hacc
  | cons dev devs ih =>
    intro acc res hacc hgo
    simp only [get_missing_ipsws_go] at hgo
    split at hgo
    · exact Except.noConfusion hgo
    · exact ih acc res hacc hgo
    · split at hgo
      · exact Except.noConfusion hgo
      · exact ih acc res hacc hgo
      · exact ih _ res (nodup_keys_dictInsert _ _ acc hacc) hgo

/-! Claim theorems -/

/-- C2 counterexample: the claim says every non-macOS family with parsed
version at least 16.0 selects the build-manifest path, but a tvOS full
image at version 16.0 selects the legacy restore-manifest path — the
source tests `prefix == "ios"`, not `prefix != "macos"`. -/
theorem C2_counterexample :
    "tvos" ≠ "macos" ∧
      verGe (parseDotted "16.0") (parseDotted "16.0") = true ∧
      (extract_symbols_from_one_ipsw_archive "tvos"
          ⟨"", "", "16.0", "20K50", "image.dmg", ["Sys.dmg"]⟩).1 =
        ManifestChoice.restoreManifest :=
  ⟨by decide, by decide, by decide⟩

/-- C2 (amended): the version-threshold branching applies only to the OS
families "ios" (threshold 16.0, against the restore-manifest version) and
"macos" (threshold 13.0, against the system-version manifest); every other
family always takes the legacy restore-manifest path. -/
theorem C2_version_threshold_branching (pfx : String) (a : IpswArchive) :
    (pfx = "ios" →
      ((extract_symbols_from_one_ipsw_archive pfx a).1 = ManifestChoice.buildManifest ↔
        verGe (parseDotted a.restore_product_version) (parseDotted "16.0") = true)) ∧
    (pfx = "macos" →
      ((extract_symbols_from_one_ipsw_archive pfx a).1 = ManifestChoice.buildManifest ↔
        verGe (parseDotted a.system_product_version) (parseDotted "13.0") = true)) ∧
    (pfx ≠ "ios" → pfx ≠ "macos" →
      (extract_symbols_from_one_ipsw_archive pfx a).1 = ManifestChoice.restoreManifest) := by
  refine ⟨?_, ?_, ?_⟩
  · rintro rfl
    by_cases hv : verGe (parseDotted a.restore_product_version) (parseDotted "16.0") = true
    · simp [extract_symbols_from_one_ipsw_archive, hv]
    · simp [extract_symbols_from_one_ipsw_archive, hv]
  · rintro rfl
    by_cases hv : verGe (parseDotted a.system_product_version) (parseDotted "13.0") = true
    · simp [extract_symbols_from_one_ipsw_archive, hv]
    · simp [extract_symbols_from_one_ipsw_archive, hv]
  · intro h₁ h₂
    simp [extract_symbols_from_one_ipsw_archive, h₁, h₂]

/-- C2 witness: a tvOS 17.1 full image takes the restore-manifest path. -/
theorem C2_witness :
    (extract_symbols_from_one_ipsw_archive "tvos"
        ⟨"", "", "17.1", "21K5", "image.dmg", ["Sys.dmg"]⟩).1 =
      ManifestChoice.restoreManifest :=
  (C2_version_threshold_branching "tvos" ⟨"", "", "17.1", "21K5", "image.dmg", ["Sys.dmg"]⟩).2.2
    (by decide) (by decide)

/-- C3 counterexample: on the legacy restore-manifest path the source
iterates over every listed system-image file, so with two candidate
entries the second one is also processed, contradicting the claim that
only the first is used. -/
theorem C3_counterexample :
    (extract_symbols_from_one_ipsw_archive "ios"
        ⟨"", "", "15.0", "19A1", "bm.dmg", ["System.dmg", "Recovery.dmg"]⟩).2 =
      ["System.dmg", "Recovery.dmg"] ∧
    "Recovery.dmg" ∈ (extract_symbols_from_one_ipsw_archive "ios"
        ⟨"", "", "15.0", "19A1", "bm.dmg", ["System.dmg", "Recovery.dmg"]⟩).2 :=
  ⟨by decide, by decide⟩

/-- C3 (amended): on the legacy restore-manifest path, every entry listed
in the restore manifest is processed, in listed order. -/
theorem C3_legacy_path_processes_all (pfx : String) (a : IpswArchive)
    (h : (extract_symbols_from_one_ipsw_archive pfx a).1 = ManifestChoice.restoreManifest) :
    (extract_symbols_from_one_ipsw_archive pfx a).2 = a.restore_image_filesystems := by
  by_cases hc :
      (pfx = "macos" ∧
          verGe (parseDotted (if pfx = "macos" then a.system_product_version
            else a.restore_product_version)) (parseDotted "13.0") = true)
        ∨ (pfx = "ios" ∧
          verGe (parseDotted (if pfx = "macos" then a.system_product_version
            else a.restore_product_version)) (parseDotted "16.0") = true)
  · simp [extract_symbols_from_one_ipsw_archive, hc] at h
  · simp [extract_symbols_from_one_ipsw_archive, hc]

/-- C3 witness: a watchOS image with two restore-manifest entries has both
processed. -/
theorem C3_witness :
    (extract_symbols_from_one_ipsw_archive "watchos"
        ⟨"", "", "9.0", "20R1", "bm.dmg", ["a.dmg", "b.dmg"]⟩).2 = ["a.dmg", "b.dmg"] :=
  C3_legacy_path_processes_all "watchos" ⟨"", "", "9.0", "20R1", "bm.dmg", ["a.dmg", "b.dmg"]⟩
    (by decide)

/-- C4 counterexample: a non-zero exit of the incremental-payload unpacker
does not propagate — `run_ota` catches it, logs it, and `unpack_ota`
returns successfully. -/
theorem C4_counterexample :
    (unpack_ota (fun _ => Except.error "ota returned non-zero exit status 1") ⟨true, []⟩).2 =
        Except.ok () ∧
      (unpack_ota (fun _ => Except.error "ota returned non-zero exit status 1") ⟨true, []⟩).1 =
        ["ota returned non-zero exit status 1"] :=
  ⟨rfl, rfl⟩

/-- C4 (amended): non-zero exits of the mount, decrypt, decompose and sort
tools propagate to the caller as extraction errors, but a non-zero exit of
the incremental-payload unpacker is caught and logged inside `run_ota` and
`unpack_ota` always returns success. -/
theorem C4_tool_failure_propagation :
    (∀ (so : Except String Unit) (e : String),
      process_shared_cache_file (Except.error e) so = Except.error e) ∧
    (∀ so : Except String Unit, process_shared_cache_file (Except.ok ()) so = so) ∧
    (∀ (s₂ : Except String Unit) (e : String),
      symsort_utilities (Except.error e) s₂ = Except.error e) ∧
    (∀ (env : DmgEnv) (e : String), (dmg_prelude env).2 = Except.ok () →
      env.mount = Except.error e → (process_one_dmg env).2 = Except.error e) ∧
    (∀ (env : DmgEnv) (e : String), env.is_aea = true →
      env.aea_key = Except.error e → (process_one_dmg env).2 = Except.error e) ∧
    (∀ (tool : String → Except String Unit) (d : OtaPayloadDir),
      (unpack_ota tool d).2 = Except.ok ()) ∧
    (∀ (tool : String → Except String Unit) (p e : String),
      tool p = Except.error e → run_ota tool p = [e]) := by
  refine ⟨fun so e => rfl, fun so => rfl, fun s₂ e => rfl, ?_, ?_, fun tool d => rfl, ?_⟩
  · intro env e hpre hmount
    simp [process_one_dmg, hpre, hmount]
  · intro env e ha hk
    simp [process_one_dmg, dmg_prelude, ha, hk]
  · intro tool p e htool
    simp [run_ota, htool]

/-- C4 witness: concrete instances — a failing decomposer propagates, a
failing mount propagates, and a failing unpacker is logged while
`unpack_ota` still succeeds. -/
theorem C4_witness :
    process_shared_cache_file (Except.error "exit 1") (Except.ok ()) = Except.error "exit 1" ∧
      (process_one_dmg ⟨false, Except.ok "", Except.ok (), Except.error "hdiutil exit 1",
          Except.ok [], fun _ => Except.ok (), Except.ok (), Except.ok ()⟩).2 =
        Except.error "hdiutil exit 1" ∧
      (unpack_ota (fun _ => Except.error "exit 1") ⟨true, []⟩).2 = Except.ok () ∧
      run_ota (fun _ => Except.error "exit 1") "payload" = ["exit 1"] :=
  ⟨C4_tool_failure_propagation.1 (Except.ok ()) "exit 1",
    C4_tool_failure_propagation.2.2.2.1
      ⟨false, Except.ok "", Except.ok (), Except.error "hdiutil exit 1", Except.ok [],
        fun _ => Except.ok (), Except.ok (), Except.ok ()⟩ "hdiutil exit 1" rfl rfl,
    C4_tool_failure_propagation.2.2.2.2.2.1 (fun _ => Except.error "exit 1") ⟨true, []⟩,
    C4_tool_failure_propagation.2.2.2.2.2.2 (fun _ => Except.error "exit 1") "payload" "exit 1"
      rfl⟩

/-- C5: whenever the mount of a disk image succeeds (and the decryption
prelude did not abort first), the trace of `process_one_dmg` contains
exactly one unmount action, it is for the mounted volume, and it is the
final action before control returns — on every exit path, including body
errors such as a missing shared-cache directory. -/
theorem C5_unmount_exactly_once (env : DmgEnv) (vol : String)
    (hpre : (dmg_prelude env).2 = Except.ok ()) (hmount : env.mount = Except.ok vol) :
    (process_one_dmg env).1.countP isUnmount = 1 ∧
      (process_one_dmg env).1.getLast? = some (Ev.unmount vol) := by
  have hp := dmg_prelude_trace_no_unmount env
  have hb := dmg_body_trace_no_unmount env
  have htrace : (process_one_dmg env).1 =
      (dmg_prelude env).1 ++ [Ev.mount] ++ (dmg_body env).1 ++ [Ev.unmount vol] := by
    simp [process_one_dmg, hpre, hmount]
  constructor
  · rw [htrace]
    simp [List.countP_append, List.countP_cons, hp, hb, isUnmount]
  · rw [htrace, List.getLast?_concat]

/-- C5 witness: a successful run over one shared-cache file unmounts the
volume exactly once, as its final action. -/
theorem C5_witness :
    (process_one_dmg ⟨false, Except.ok "", Except.ok (), Except.ok "/Volumes/SysImage",
          Except.ok ["dyld_shared_cache_arm64e"], fun _ => Except.ok (), Except.ok (),
          Except.ok ()⟩).1.countP isUnmount = 1 ∧
      (process_one_dmg ⟨false, Except.ok "", Except.ok (), Except.ok "/Volumes/SysImage",
          Except.ok ["dyld_shared_cache_arm64e"], fun _ => Except.ok (), Except.ok (),
          Except.ok ()⟩).1.getLast? = some (Ev.unmount "/Volumes/SysImage") :=
  C5_unmount_exactly_once
    ⟨false, Except.ok "", Except.ok (), Except.ok "/Volumes/SysImage",
      Except.ok ["dyld_shared_cache_arm64e"], fun _ => Except.ok (), Except.ok (), Except.ok ()⟩
    "/Volumes/SysImage" rfl rfl

/-- C6 counterexample: the body of `process_one_dmg` fails with "boom",
the unmount fails with "detach failed", and the error that propagates is
the unmount failure — the original processing error is masked, contrary to
the claim. -/
theorem C6_counterexample :
    (dmg_body ⟨false, Except.ok "", Except.ok (), Except.ok "/Volumes/Sys",
          Except.ok ["dyld_shared_cache_arm64e"], fun _ => Except.error "boom", Except.ok (),
          Except.error "detach failed"⟩).2 = Except.error "boom" ∧
      (process_one_dmg ⟨false, Except.ok "", Except.ok (), Except.ok "/Volumes/Sys",
          Except.ok ["dyld_shared_cache_arm64e"], fun _ => Except.error "boom", Except.ok (),
          Except.error "detach failed"⟩).2 = Except.error "detach failed" ∧
      (Except.error "detach failed" : Except String Unit) ≠ Except.error "boom" :=
  ⟨rfl, rfl, by simp⟩

/-- C6 (amended): when processing of a mounted image raises an error and
the subsequent unmount also fails, the unmount failure is the error that
propagates to the caller, replacing the original processing error (Python
`finally` semantics); the unmount failure is not separately logged. -/
theorem C6_unmount_failure_masks (env : DmgEnv) (vol : String) (e₁ e₂ : String)
    (hpre : (dmg_prelude env).2 = Except.ok ()) (hmount : env.mount = Except.ok vol)
    (hbody : (dmg_body env).2 = Except.error e₁) (hdetach : env.detach = Except.error e₂) :
    (process_one_dmg env).2 = Except.error e₂ := by
  simp [process_one_dmg, hpre, hmount, hdetach]

/-- C6 witness: with a failing body and failing detach, the detach error
is the propagated one. -/
theorem C6_witness :
    (process_one_dmg ⟨false, Except.ok "", Except.ok (), Except.ok "/Volumes/Sys",
        Except.ok ["dyld_shared_cache_arm64e"], fun _ => Except.error "boom", Except.ok (),
        Except.error "detach failed"⟩).2 = Except.error "detach failed" :=
  C6_unmount_failure_masks
    ⟨false, Except.ok "", Except.ok (), Except.ok "/Volumes/Sys",
      Except.ok ["dyld_shared_cache_arm64e"], fun _ => Except.error "boom", Except.ok (),
      Except.error "detach failed"⟩
    "/Volumes/Sys" "boom" "detach failed" rfl rfl rfl rfl

/-- C8: provided the catalog reports the same archive URL for any two
devices of the family that share a build number and architecture (the
(build_number, architecture) pair identifies the underlying archive, as
the spec notes), the discovery result contains exactly one entry — hence
exactly one archive download in `main_download_ipsws` — for every
discovered (build_number, architecture) pair, regardless of how many
devices reported it; moreover the download-URL keys carry no duplicates. -/
theorem C8_download_exactly_once (os_name os_version : String)
    (info : String → Except String (List IpswInfo))
    (hasSym : String → String → Except String Bool)
    (res : List (String × List IPSW))
    (hcat : ∀ d₁ d₂ : Device, d₁ ∈ dictGetD os_name DEVICES_TO_CHECK [] →
      d₂ ∈ dictGetD os_name DEVICES_TO_CHECK [] →
      ∀ (ii₁ : IpswInfo) (r₁ : List IpswInfo) (ii₂ : IpswInfo) (r₂ : List IpswInfo),
        info d₁.identifier = Except.ok (ii₁ :: r₁) →
        info d₂.identifier = Except.ok (ii₂ :: r₂) →
        ii₁.buildid = ii₂.buildid → d₁.architecture = d₂.architecture → ii₁.url = ii₂.url)
    (hres : get_missing_ipsws os_name os_version info hasSym = Except.ok res) :
    (res.map Prod.fst).Nodup ∧
      ∀ b a, (∃ e ∈ res, entryHasBA b a e = true) → res.countP (entryHasBA b a) = 1 := by
  unfold get_missing_ipsws at hres
  by_cases hn : (dictGet? os_name DEVICES_TO_CHECK).isNone
  · rw [if_pos hn] at hres
    cases hres
    refine ⟨List.nodup_nil, ?_⟩
    rintro b a ⟨e, he, _⟩
    cases he
  · rw [if_neg hn] at hres
    have hprov := go_prov os_name info hasSym (dictGetD os_name DEVICES_TO_CHECK [])
      (dictGetD os_name DEVICES_TO_CHECK []) [] res (fun d hd => hd)
      (fun url s h => absurd h (List.not_mem_nil _)) hres
    have hnd := go_nodup os_name info hasSym (dictGetD os_name DEVICES_TO_CHECK []) [] res
      List.nodup_nil hres
    refine ⟨hnd, ?_⟩
    rintro b a ⟨e, he, hba⟩
    refine countP_eq_one_of_unique (entryHasBA b a) res (List.Nodup.of_map _ hnd) e he hba ?_
    intro e₂ he₂ hba₂
    obtain ⟨u₁, s₁⟩ := e
    obtain ⟨u₂, s₂⟩ := e₂
    simp only [entryHasBA, List.any_eq_true, Bool.and_eq_true, beq_iff_eq] at hba hba₂
    obtain ⟨i₁, hi₁, hib₁, hia₁⟩ := hba
    obtain ⟨i₂, hi₂, hib₂, hia₂⟩ := hba₂
    rcases hprov u₁ s₁ he i₁ hi₁ with ⟨d₁, hd₁, ii₁, r₁, hinfo₁, hurl₁, hb₁, ha₁⟩
    rcases hprov u₂ s₂ he₂ i₂ hi₂ with ⟨d₂, hd₂, ii₂, r₂, hinfo₂, hurl₂, hb₂, ha₂⟩
    have hurl : ii₂.url = ii₁.url := by
      apply hcat d₂ d₁ hd₂ hd₁ ii₂ r₂ ii₁ r₁ hinfo₂ hinfo₁
      · rw [hb₂, hb₁, hib₂, hib₁]
      · rw [ha₂, ha₁, hia₂, hia₁]
    have hu : u₂ = u₁ := by rw [← hurl₁, ← hurl₂, hurl]
    have hs : s₂ = s₁ := nodup_keys_functional u₂ s₂ s₁ res hnd he₂ (hu.symm ▸ he)
    rw [hu, hs]

/-- C8 witness: two tvOS devices reporting the same build, architecture
and URL yield one discovery entry and a single download for that pair. -/
theorem C8_witness :
    ∃ res, get_missing_ipsws "tvos" "latest"
        (fun _ => Except.ok [⟨"16.1", "20K50", "http://apple.com/a.ipsw"⟩])
        (fun _ _ => Except.ok false) = Except.ok res ∧
      (res.map Prod.fst).Nodup ∧ res.countP (entryHasBA "20K50" "arm64") = 1 := by
  have h := C8_download_exactly_once "tvos" "latest"
    (fun _ => Except.ok [⟨"16.1", "20K50", "http://apple.com/a.ipsw"⟩])
    (fun _ _ => Except.ok false)
    [("http://apple.com/a.ipsw", [⟨"arm64", "20K50", "tvos", "16.1", "a.ipsw"⟩])]
    (by
      intro d₁ d₂ _ _ ii₁ r₁ ii₂ r₂ h₁ h₂ _ _
      injection h₁ with h₁
      injection h₂ with h₂
      injection h₁ with h₁a h₁b
      injection h₂ with h₂a h₂b
      rw [← h₁a, ← h₂a])
    rfl
  exact ⟨[("http://apple.com/a.ipsw", [⟨"arm64", "20K50", "tvos", "16.1", "a.ipsw"⟩])], rfl,
    h.1, h.2 "20K50" "arm64"
      ⟨("http://apple.com/a.ipsw", [⟨"arm64", "20K50", "tvos", "16.1", "a.ipsw"⟩]),
        List.mem_singleton.mpr rfl, by decide⟩⟩

/-- C9: the artifact-store existence check has exactly three outcomes —
exit status zero yields `true`; a non-zero exit whose output contains
"not found" yields `false`; any other non-zero exit propagates the
`check_returncode` error and is never reported as `false`. -/
theorem C9_existence_gate (r : RunResult) :
    (has_symbols_in_cloud_storage r = Except.ok true ↔ r.returncode = 0) ∧
      (has_symbols_in_cloud_storage r = Except.ok false ↔
        (r.returncode ≠ 0 ∧ stdoutHasNotFound r.stdout = true)) ∧
      ((r.returncode ≠ 0 ∧ stdoutHasNotFound r.stdout = false) →
        has_symbols_in_cloud_storage r =
          Except.error ("Command returned non-zero exit status " ++ toString r.returncode)) := by
  by_cases h0 : r.returncode = 0
  · simp [has_symbols_in_cloud_storage, h0]
  · cases hnf : stdoutHasNotFound r.stdout with
    | true => simp [has_symbols_in_cloud_storage, check_returncode, h0, hnf]
    | false => simp [has_symbols_in_cloud_storage, check_returncode, h0, hnf]

/-- C9 witness: the three outcomes at concrete `gcloud` results. -/
theorem C9_witness :
    has_symbols_in_cloud_storage ⟨0, ""⟩ = Except.ok true ∧
      has_symbols_in_cloud_storage ⟨1, "ERROR: object not found"⟩ = Except.ok false ∧
      has_symbols_in_cloud_storage ⟨1, "ERROR: permission denied"⟩ =
        Except.error ("Command returned non-zero exit status " ++ toString 1) :=
  ⟨(C9_existence_gate ⟨0, ""⟩).1.mpr rfl,
    (C9_existence_gate ⟨1, "ERROR: object not found"⟩).2.1.mpr ⟨by decide, by decide⟩,
    (C9_existence_gate ⟨1, "ERROR: permission denied"⟩).2.2 ⟨by decide, by decide⟩⟩

/-- C1: the `except` block of the OTA processing loop catches every
exception in both modes.  With the single-version selector ("latest"), a
release whose extraction raises is silently swallowed — no log entry, no
propagation — and the loop continues to the next release and to the
upload; the claim (and the spec) say the failure should propagate and
abort.  With selector "all" the same failure is caught and logged, as
claimed.  The divergence is the missing re-raise in the non-bulk branch. -/
theorem C1_single_version_mode_swallows_errors :
    main_download_otas "latest" (fun _ => Except.ok ())
        (fun o => if o.build_number = "20B1" then Except.error "corrupt archive"
          else Except.ok ())
        true
        (Except.ok [⟨"20B1", "iPhone14,2", "ios", "16.1", "u1"⟩,
          ⟨"20B2", "iPhone14,2", "ios", "16.2", "u2"⟩]) =
      ([OtaEv.download ⟨"20B1", "iPhone14,2", "ios", "16.1", "u1"⟩,
        OtaEv.extract ⟨"20B1", "iPhone14,2", "ios", "16.1", "u1"⟩,
        OtaEv.download ⟨"20B2", "iPhone14,2", "ios", "16.2", "u2"⟩,
        OtaEv.extract ⟨"20B2", "iPhone14,2", "ios", "16.2", "u2"⟩,
        OtaEv.upload], Except.ok ()) ∧
      main_download_otas "all" (fun _ => Except.ok ())
        (fun o => if o.build_number = "20B1" then Except.error "corrupt archive"
          else Except.ok ())
        true
        (Except.ok [⟨"20B1", "iPhone14,2", "ios", "16.1", "u1"⟩,
          ⟨"20B2", "iPhone14,2", "ios", "16.2", "u2"⟩]) =
      ([OtaEv.download ⟨"20B1", "iPhone14,2", "ios", "16.1", "u1"⟩,
        OtaEv.extract ⟨"20B1", "iPhone14,2", "ios", "16.1", "u1"⟩,
        OtaEv.logError "corrupt archive",
        OtaEv.download ⟨"20B2", "iPhone14,2", "ios", "16.2", "u2"⟩,
        OtaEv.extract ⟨"20B2", "iPhone14,2", "ios", "16.2", "u2"⟩,
        OtaEv.upload], Except.ok ()) :=
  ⟨rfl, rfl⟩

/-- C7: a `(version, build_number)` pair present in both the
incremental-update and full-image catalogs of the same device is *not*
removed when the raw version starts with "9.9.": the `versions` dict is
keyed by the normalized version while the diffing pass pops the raw
full-image version (the computed `normal_version` on the preceding source
line is left unused), so the release survives into the result. -/
theorem C7_cross_reference_pair_not_removed :
    get_missing_ota_only_releases "watchos" "all"
        (fun id => if id = "Watch5,4" then
          Except.ok [⟨"9.9.1.0", "20R1", "http://updates.example/o.zip", "", "", "", 0,
            "Watch5,4"⟩]
        else Except.ok [])
        (fun id => if id = "Watch5,4" then
          Except.ok [⟨"9.9.1.0", "20R1", "http://updates.example/i.ipsw", "", "", "", 0,
            "Watch5,4"⟩]
        else Except.ok [])
        (fun _ _ => Except.ok false) =
      Except.ok [⟨"20R1", "Watch5,4", "watchos", "9.9.1.0", "http://updates.example/o.zip"⟩] :=
  rfl

/-- C10: for an OS-family name absent from the static device table, both
discovery functions return successfully with an empty result, and the
orchestrator therefore performs no download, extraction or upload. -/
theorem C10_unknown_family_no_work (os_name : String)
    (h : dictGet? os_name DEVICES_TO_CHECK = none) :
    (∀ osv info hasSym, get_missing_ipsws os_name osv info hasSym = Except.ok []) ∧
      (∀ osv otaCat ipswCat hasSym,
        get_missing_ota_only_releases os_name osv otaCat ipswCat hasSym = Except.ok []) ∧
      (∀ osv info hasSym,
        main_download_ipsws_downloads (get_missing_ipsws os_name osv info hasSym) = []) ∧
      (∀ osv otaCat ipswCat hasSym download extract upl,
        main_download_otas osv download extract upl
          (get_missing_ota_only_releases os_name osv otaCat ipswCat hasSym) =
          ([], Except.ok ())) := by
  have hdev : dictGetD os_name DEVICES_TO_CHECK ([] : List Device) = [] := by
    unfold dictGetD
    rw [h]
    rfl
  have hipsw : ∀ osv info hasSym, get_missing_ipsws os_name osv info hasSym = Except.ok [] := by
    intro osv info hasSym
    simp [get_missing_ipsws, h]
  have hota : ∀ osv otaCat ipswCat hasSym,
      get_missing_ota_only_releases os_name osv otaCat ipswCat hasSym = Except.ok [] := by
    intro osv otaCat ipswCat hasSym
    simp [get_missing_ota_only_releases, hdev, ota_device_loop, ota_collect]
  refine ⟨hipsw, hota, ?_, ?_⟩
  · intro osv info hasSym
    rw [hipsw osv info hasSym]
    rfl
  · intro osv otaCat ipswCat hasSym download extract upl
    rw [hota osv otaCat ipswCat hasSym]
    rfl

/-- C10 witness: a run for the unknown family "android" discovers nothing
and performs no downstream work. -/
theorem C10_witness :
    get_missing_ipsws "android" "latest" (fun _ => Except.ok []) (fun _ _ => Except.ok false) =
        Except.ok [] ∧
      get_missing_ota_only_releases "android" "latest" (fun _ => Except.ok [])
          (fun _ => Except.ok []) (fun _ _ => Except.ok false) = Except.ok [] ∧
      main_download_otas "latest" (fun _ => Except.ok ()) (fun _ => Except.ok ()) true
          (get_missing_ota_only_releases "android" "latest" (fun _ => Except.ok [])
            (fun _ => Except.ok []) (fun _ _ => Except.ok false)) = ([], Except.ok ()) :=
  ⟨(C10_unknown_family_no_work "android" (by decide)).1 "latest" (fun _ => Except.ok [])
      (fun _ _ => Except.ok false),
    (C10_unknown_family_no_work "android" (by decide)).2.1 "latest" (fun _ => Except.ok [])
      (fun _ => Except.ok []) (fun _ _ => Except.ok false),
    (C10_unknown_family_no_work "android" (by decide)).2.2.2 "latest" (fun _ => Except.ok [])
      (fun _ => Except.ok []) (fun _ _ => Except.ok false) (fun _ => Except.ok ())
      (fun _ => Except.ok ()) true⟩

end AppleSymbols
